import Mathlib

/-!
Verification of the BSI data-cleaning core.

This file gives a shallow embedding of the central algorithms of the
repository and proves (or refutes) the stated properties about them.

Modelling conventions, used throughout:
- Timestamps are integers counting seconds; midnight of day `n` is the
  integer `n * 86400`.  A pandas `Timestamp.normalize` is flooring to a
  multiple of 86400, `Timedelta.days` is flooring division by 86400
  (`Int.fdiv`), and `pd.Timedelta(days=k)` is `k * 86400` seconds.
- A pandas missing value (`NaN` / `NaT` / `None`) is `Option.none`; key
  columns that the code never uses with missing values are modelled as
  total fields.
- A DataFrame is a `List` of row structures, in frame order.  A pandas
  stable multi-column sort is a stable insertion sort by the same
  lexicographic key; `groupby` iteration and `groupby(...).sum()` list
  groups with keys in ascending sorted order, and within a group the rows
  keep frame order.
- Code paths that raise (`ValueError`, indexing an empty list) make the
  embedded function return `Option.none`.
-/

/-! ## Generic list helpers (stable sort, modelled on pandas lexsort) -/

/-- Insert `x` into `l` in front of the first element `y` with `le x y`.
Used by `sortByLe`; placing `x` before equal keys makes the sort stable. -/
def insertLe (le : α → α → Bool) (x : α) : List α → List α
  | [] => [x]
  | y :: ys => if le x y then x :: y :: ys else y :: insertLe le x ys

/-- Stable insertion sort by a boolean (total) comparison, the model of
`DataFrame.sort_values` (multi-column sorts in pandas are stable). -/
def sortByLe (le : α → α → Bool) : List α → List α
  | [] => []
  | x :: xs => insertLe le x (sortByLe le xs)

/-- Sequence a list of optional results, failing if any element fails.
Models applying a row operation that may raise across a whole frame. -/
def optionMapM (f : α → Option β) : List α → Option (List β)
  | [] => some []
  | a :: as =>
    match f a, optionMapM f as with
    | some b, some bs => some (b :: bs)
    | _, _ => none

/-! ## IntervalMerger: `HospitalisationCleaner.calculate_duration`

Source: `src/data_cleaning/cleaners/episode/clean_data_hospitalisation.py`.
An interval is a closed `pd.Interval` of timestamps, modelled as a pair
`(left, right)` of second counts. -/

/-- The merging fold of `calculate_duration`: starting from the first
sorted interval, append the next interval when its left end is strictly
beyond the right end of the last merged interval, otherwise widen the last
merged interval to the max of the two right ends. -/
def mergeFold (first : ℤ × ℤ) (rest : List (ℤ × ℤ)) : List (ℤ × ℤ) :=
  let state := rest.foldl
    (fun (acc : List (ℤ × ℤ) × (ℤ × ℤ)) iv =>
      if iv.1 > acc.2.2 then (acc.1 ++ [acc.2], iv)
      else (acc.1, (acc.2.1, max acc.2.2 iv.2)))
    ([], first)
  state.1 ++ [state.2]

/-- The merged interval list of `calculate_duration`: sort by left endpoint
(stable, like Python `sorted` with `key=lambda x: x.left`), then fold. -/
def merge_intervals (l : List (ℤ × ℤ)) : List (ℤ × ℤ) :=
  match sortByLe (fun a b => decide (a.1 ≤ b.1)) l with
  | [] => []
  | f :: rest => mergeFold f rest

/-- The summed second count of `calculate_duration` before the final unit
conversion: over the merged intervals, `(right - left).total_seconds() + 1`.
`none` models the `IndexError` the source raises on an empty list
(`intervals[0]`). -/
def duration_total_seconds (l : List (ℤ × ℤ)) : Option ℤ :=
  match sortByLe (fun a b => decide (a.1 ≤ b.1)) l with
  | [] => none
  | f :: rest => some (((mergeFold f rest).map (fun iv => iv.2 - iv.1 + 1)).sum)

/-- `HospitalisationCleaner.calculate_duration`: merge the intervals and
return the summed seconds divided by `24 * 60 * 60`, as a rational number
of days. -/
def calculate_duration (l : List (ℤ × ℤ)) : Option ℚ :=
  (duration_total_seconds l).map (fun s => (s : ℚ) / (24 * 60 * 60))

example :
    merge_intervals [(0, 2 * 86400), (86400, 4 * 86400)] = [(0, 4 * 86400)] := by
  decide

example :
    duration_total_seconds [(0, 2 * 86400), (86400, 4 * 86400)] = some 345601 := by
  decide

example :
    calculate_duration [(0, 2 * 86400), (86400, 4 * 86400)]
      = some ((345601 : ℚ) / 86400) := by
  rw [calculate_duration,
    show duration_total_seconds [(0, 2 * 86400), (86400, 4 * 86400)] = some 345601
      from by decide]
  norm_num

example : ((345601 : ℚ) / 86400) ≠ 5 := by norm_num

/-! ## BlockAssigner: `BaseCleaner.assign_block_id`

Source: `src/data_cleaning/cleaners/baseCleaner.py`.  Rows carry a patient
id and start/stop timestamps (in seconds; the source normalizes both to
date granularity before comparing). -/

structure BlockRow where
  patient_id : ℕ
  start : ℤ
  stop : ℤ
deriving DecidableEq, Repr

structure BlockOut where
  patient_id : ℕ
  start : ℤ
  stop : ℤ
  start_date : ℤ
  stop_date : ℤ
  block_id : ℕ
deriving DecidableEq, Repr

/-- `Timestamp.normalize`: floor a second count to midnight of its day. -/
def normalizeTs (t : ℤ) : ℤ := (Int.fdiv t 86400) * 86400

/-- Lexicographic sort key of `assign_block_id`:
`(patient_id, start_date, stop_date)` ascending. -/
def blockLe (a b : BlockRow) : Bool :=
  decide (a.patient_id < b.patient_id) ||
    (decide (a.patient_id = b.patient_id) &&
      (decide (normalizeTs a.start < normalizeTs b.start) ||
        (decide (normalizeTs a.start = normalizeTs b.start) &&
          decide (normalizeTs a.stop ≤ normalizeTs b.stop))))

/-- The row scan of `assign_block_id` after sorting.  `prevCm` is the value
the global `.shift()` hands to the current row: the per-patient cumulative
max of `stop_date` evaluated at the immediately preceding row of the whole
frame (whatever patient that row belongs to); `none` for the first frame
row, where the shifted series is `NaN`.  `cmMap` is the per-patient running
max of `stop_date`, and `cnt` the per-patient cumulative sum of new-block
flags.  `gap` is `time` in days. -/
def blockAux (gap : ℤ) (prevCm : Option ℤ) (cmMap : ℕ → Option ℤ) (cnt : ℕ → ℕ) :
    List BlockRow → List BlockOut
  | [] => []
  | r :: rs =>
    let sd := normalizeTs r.start
    let td := normalizeTs r.stop
    let flag : Bool :=
      match prevCm with
      | none => true
      | some m => decide (sd > m + gap * 86400)
    let c := cnt r.patient_id + (if flag then 1 else 0)
    let cm : ℤ :=
      match cmMap r.patient_id with
      | none => td
      | some m => max m td
    ⟨r.patient_id, r.start, r.stop, sd, td, c⟩ ::
      blockAux gap (some cm)
        (fun q => if q = r.patient_id then some cm else cmMap q)
        (fun q => if q = r.patient_id then c else cnt q) rs

/-- `BaseCleaner.assign_block_id`: normalize start/stop to dates, sort by
`(patient_id, start_date, stop_date)`, flag a new block when the previous
frame row is absent (`shift` produced `NaN`) or when `start_date` exceeds
the shifted per-patient cumulative max stop plus `time` days, and number
blocks by the per-patient cumulative sum of flags. -/
def assign_block_id (df : List BlockRow) (time : ℤ) : List BlockOut :=
  blockAux time none (fun _ => none) (fun _ => 0) (sortByLe blockLe df)

example :
    (assign_block_id
        [⟨1, 10 * 86400, 20 * 86400⟩, ⟨2, 5 * 86400, 6 * 86400⟩] 0).map
      (fun o => (o.patient_id, o.block_id)) = [(1, 1), (2, 0)] := by
  decide

/-! ## WindowedDurationAggregator: `calculate_hosp_duration_past`

Source: `src/data_cleaning/cleaners/episode/clean_data_hospitalisation.py`.
Episode ids are opaque and modelled as naturals; all dates are second
counts.  `time_before` is a `pd.Timedelta`, modelled in seconds. -/

structure HRow where
  episode_id : ℕ
  patient_id : ℕ
  sample_date : ℤ
  hosp_start : ℤ
  hosp_stop : ℤ
deriving DecidableEq, Repr

structure PastOut where
  episode_id : ℕ
  sample_date : ℤ
  value : ℚ
deriving DecidableEq, Repr

/-- The `groupby` key of `calculate_hosp_duration_past`:
`(episode_id, patient_id, sample_date)`. -/
def hospKey (r : HRow) : ℕ × ℕ × ℤ := (r.episode_id, r.patient_id, r.sample_date)

/-- Ascending lexicographic order on group keys, the order in which pandas
`groupby` iterates groups. -/
def keyLe (a b : ℕ × ℕ × ℤ) : Bool :=
  decide (a.1 < b.1) ||
    (decide (a.1 = b.1) &&
      (decide (a.2.1 < b.2.1) ||
        (decide (a.2.1 = b.2.1) && decide (a.2.2 ≤ b.2.2))))

/-- The distinct group keys of the frame, in the ascending order `groupby`
iterates them. -/
def hospGroupKeys (df : List HRow) : List (ℕ × ℕ × ℤ) :=
  (sortByLe keyLe (df.map hospKey)).dedup

/-- The per-group selection of `calculate_hosp_duration_past`: the rows of
the group that satisfy `hosp_start < baseline or hosp_stop > baseline -
time_before`, clipped to `constrained_start = max(hosp_start, baseline -
time_before)` and `constrained_stop = min(hosp_stop, baseline)`, keeping
only intervals with `constrained_start < constrained_stop`. -/
def keptIntervals (df : List HRow) (k : ℕ × ℕ × ℤ) (tb : ℤ) : List (ℤ × ℤ) :=
  let baseline := k.2.2
  (((df.filter (fun r => decide (hospKey r = k))).filter
      (fun r =>
        decide (r.hosp_start < baseline) ||
          decide (r.hosp_stop > baseline - tb))).map
    (fun r => (max r.hosp_start (baseline - tb), min r.hosp_stop baseline))).filter
    (fun iv => decide (iv.1 < iv.2))

/-- One group of `calculate_hosp_duration_past`: an explicit zero row when
no clipped interval survives, otherwise the merged duration of the
surviving intervals.  `none` propagates a raised error. -/
def processGroup (df : List HRow) (k : ℕ × ℕ × ℤ) (tb : ℤ) : Option PastOut :=
  match keptIntervals df k tb with
  | [] => some ⟨k.1, k.2.2, 0⟩
  | iv :: ivs => (calculate_duration (iv :: ivs)).map (fun d => ⟨k.1, k.2.2, d⟩)

/-- `HospitalisationCleaner.calculate_hosp_duration_past`: one output row
per `(episode_id, patient_id, sample_date)` group, in group-key order. -/
def calculate_hosp_duration_past (df : List HRow) (tb : ℤ) : Option (List PastOut) :=
  optionMapM (fun k => processGroup df k tb) (hospGroupKeys df)

example :
    calculate_hosp_duration_past [⟨7, 3, 0, 10 * 86400, 20 * 86400⟩] 0
      = some [⟨7, 0, 0⟩] := by
  decide

/-! ## EpisodeSegmenter: `MicrobiologyCleaner.determine_episode`

Source: `src/data_cleaning/cleaners/microbiology/microbiologyCleaner.py`.
A sample date that `pd.to_datetime(..., errors="coerce")` fails to parse is
`none` (`NaT`).  The typical call sorts by `(patient_id, sample_date)`;
pandas `sort_values` places `NaT` last within equal patients. -/

structure MRow where
  patient_id : ℕ
  sample_date : Option ℤ
deriving DecidableEq, Repr

structure EpRow where
  patient_id : ℕ
  sample_date : Option ℤ
  new_episode : Bool
  episode_nr : ℕ
  episode_id : String
deriving DecidableEq, Repr

/-- Sort key of the typical `determine_episode` call: patient id, then
sample date ascending with missing dates last (`na_position="last"`). -/
def mrowLe (a b : MRow) : Bool :=
  decide (a.patient_id < b.patient_id) ||
    (decide (a.patient_id = b.patient_id) &&
      (match a.sample_date, b.sample_date with
       | some x, some y => decide (x ≤ y)
       | some _, none => true
       | none, some _ => false
       | none, none => true))

/-- The patient-change test of `determine_episode`:
`df[patient_id] != df[patient_id].shift(1, fill_value=0)`, so the first
frame row is compared against the fill value `0`. -/
def patientChange (pp : Option ℕ) (r : MRow) : Bool :=
  match pp with
  | none => decide (r.patient_id ≠ 0)
  | some q => decide (r.patient_id ≠ q)

/-- The per-patient day gap of `determine_episode`:
`groupby(patient)[date].diff().dt.days` at one row.  `ld` maps a patient
to the sample date of the previous row of that patient (`none` when the
patient has no previous row; `some none` when that row had a `NaT` date).
The gap is defined only when both dates exist. -/
def daysDiff (ld : ℕ → Option (Option ℤ)) (r : MRow) : Option ℤ :=
  match ld r.patient_id, r.sample_date with
  | some (some d0), some d => some (Int.fdiv (d - d0) 86400)
  | _, _ => none

/-- The `days_diff > time` test; an undefined gap compares `False`. -/
def gapFlag (t : ℤ) (ld : ℕ → Option (Option ℤ)) (r : MRow) : Bool :=
  match daysDiff ld r with
  | some g => decide (g > t)
  | none => false

/-- State update: record the sample date of the row just processed as the
previous date of its patient. -/
def epUpdLd (ld : ℕ → Option (Option ℤ)) (r : MRow) : ℕ → Option (Option ℤ) :=
  fun q => if q = r.patient_id then some r.sample_date else ld q

/-- State update: record the new cumulative episode count of the patient
of the row just processed. -/
def epUpdCnt (cnt : ℕ → ℕ) (r : MRow) (c : ℕ) : ℕ → ℕ :=
  fun q => if q = r.patient_id then c else cnt q

/-- The scan of `determine_episode` after sorting.  `pp` is the patient id
of the previous frame row, `ld` the per-patient previous sample date and
`cnt` the per-patient cumulative sum of new-episode flags. -/
def epAux (time : ℤ) :
    Option ℕ → (ℕ → Option (Option ℤ)) → (ℕ → ℕ) → List MRow → List EpRow
  | _, _, _, [] => []
  | pp, ld, cnt, r :: rs =>
    let flag := patientChange pp r || gapFlag time ld r
    let c := cnt r.patient_id + (if flag then 1 else 0)
    ⟨r.patient_id, r.sample_date, flag, c, toString r.patient_id ++ toString c⟩ ::
      epAux time (some r.patient_id) (epUpdLd ld r) (epUpdCnt cnt r c) rs

/-- `MicrobiologyCleaner.determine_episode` (typical call, sorted by
patient id then sample date): sort, flag a new episode on a patient-id
change or a defined day gap exceeding `time`, number episodes by the
per-patient cumulative flag sum, and build `episode_id` by concatenating
the patient id and the episode number. -/
def determine_episode (df : List MRow) (time : ℤ) : List EpRow :=
  epAux time none (fun _ => none) (fun _ => 0) (sortByLe mrowLe df)

-- Scenario: patient 1 sampled on days 1, 5 and 40 with time = 30 gives
-- episodes 1, 1, 2 and ids "11", "11", "12".
example :
    (determine_episode
        [⟨1, some (1 * 86400)⟩, ⟨1, some (5 * 86400)⟩, ⟨1, some (40 * 86400)⟩]
        30).map (fun e => (e.episode_nr, e.episode_id))
      = [(1, "11"), (1, "11"), (2, "12")] := by
  decide

-- A missing date never opens a new episode inside a patient: the rows with
-- unparsable dates (sorted last within the patient) are absorbed into the
-- running episode, however large the real gap might be.
example :
    (determine_episode [⟨1, some 0⟩, ⟨1, none⟩, ⟨1, none⟩] 30).map
      (fun e => (e.new_episode, e.episode_nr))
      = [(true, 1), (false, 1), (false, 1)] := by
  decide

example :
    (determine_episode [⟨1, some 0⟩, ⟨1, some (90 * 86400)⟩, ⟨1, none⟩] 30).map
      (fun e => (e.new_episode, e.episode_nr))
      = [(true, 1), (true, 2), (false, 2)] := by
  decide

/-! ## FindingClassifier stage 1: `set_contaminant_relevant`

Source: `src/data_cleaning/cleaners/microbiology/microbiologyCleaner.py`.
The sample identifier (`sid`) may be missing; `potential_contaminant` may
be missing (`df[col] == True` is then `False`).  The grouping key columns
are modelled as total fields. -/

structure CRow where
  patient_id : ℕ
  sample_date : ℤ
  species : String
  sid : Option String
  potential_contaminant : Option Bool
deriving DecidableEq, Repr

structure CRowOut where
  patient_id : ℕ
  sample_date : ℤ
  species : String
  sid : Option String
  potential_contaminant : Option Bool
  relevant : Bool
deriving DecidableEq, Repr

/-- The mask of `set_contaminant_relevant`:
`df[potential_contaminant_col] == True`. -/
def isFlagged (r : CRow) : Bool := r.potential_contaminant == some true

/-- The `(patient_id, sample_date, species)` grouping key. -/
def crowKey (r : CRow) : ℕ × ℤ × String :=
  (r.patient_id, r.sample_date, r.species)

/-- The `bottle` method group statistic:
`df.loc[mask].groupby([patient, date, species])[labnr].transform("count")`,
the number of rows with a non-missing sample identifier in the flagged
rows of the group. -/
def bottleGroupCount (df : List CRow) (k : ℕ × ℤ × String) : ℕ :=
  ((df.filter isFlagged).filter (fun r => decide (crowKey r = k))).countP
    (fun r => !(r.sid == none))

/-- The `labnr` method group statistic:
`... .transform("nunique")`, the number of distinct non-missing sample
identifiers in the flagged rows of the group. -/
def sidNunique (df : List CRow) (k : ℕ × ℤ × String) : ℕ :=
  ((((df.filter isFlagged).filter (fun r => decide (crowKey r = k))).filterMap
      (fun r => r.sid)).dedup).length

/-- `MicrobiologyCleaner.set_contaminant_relevant`: flagged rows get the
method-specific boolean, unflagged rows keep `None`, and the final
`fillna(True)` turns that `None` into `True`.  An unknown method raises
(`none`). -/
def set_contaminant_relevant (df : List CRow) (method : String) :
    Option (List CRowOut) :=
  if method = "bottle" then
    some (df.map (fun r =>
      ⟨r.patient_id, r.sample_date, r.species, r.sid, r.potential_contaminant,
        if isFlagged r then !decide (bottleGroupCount df (crowKey r) < 3)
        else true⟩))
  else if method = "labnr" then
    some (df.map (fun r =>
      ⟨r.patient_id, r.sample_date, r.species, r.sid, r.potential_contaminant,
        if isFlagged r then !decide (sidNunique df (crowKey r) = 1)
        else true⟩))
  else if method = "potential_contaminant" then
    some (df.map (fun r =>
      ⟨r.patient_id, r.sample_date, r.species, r.sid, r.potential_contaminant,
        if isFlagged r then false else true⟩))
  else none

-- A flagged species in 3 distinct bottles on one date is relevant.
example :
    (set_contaminant_relevant
        [⟨1, 0, "S", some "a", some true⟩, ⟨1, 0, "S", some "b", some true⟩,
          ⟨1, 0, "S", some "c", some true⟩] "bottle").map
      (List.map CRowOut.relevant) = some [true, true, true] := by
  decide

/-! ## FindingClassifier stage 2: `set_mono_poly_contamination`

The `relevant` column of the input may, in general, hold `True`, `False`
or a missing value, so it is modelled as `Option Bool`
(`set_contaminant_relevant` always produces a boolean).  The sample date
may also be missing (`NaT`, e.g. an unparsable date that
`determine_episode` coerced and kept): `drop_duplicates` treats a missing
key value as equal to itself, but the counts `groupby` drops groups whose
key is missing (`dropna=True` default), so the `how="left"` merge leaves
the two count columns `NaN` on such rows, every comparison in
`classify_finding` is then `False`, and the `ValueError` is raised. -/

structure FRow where
  patient_id : ℕ
  sample_date : Option ℤ
  species : String
  relevant : Option Bool
deriving DecidableEq, Repr

structure FRowOut where
  patient_id : ℕ
  sample_date : Option ℤ
  species : String
  relevant : Option Bool
  nr_relevant_findings : ℕ
  nr_non_relevant_findings : ℕ
  mono_poly_contamination : String
deriving DecidableEq, Repr

/-- `drop_duplicates` keeping the first row of every key, the pandas
deduplication used before counting findings.  `seen` holds the keys of
rows already kept; a missing sample date is a key value like any other
here. -/
def dedupFirst (seen : List (ℕ × Option ℤ × String)) : List FRow → List FRow
  | [] => []
  | r :: rs =>
    let k := (r.patient_id, r.sample_date, r.species)
    if k ∈ seen then dedupFirst seen rs
    else r :: dedupFirst (k :: seen) rs

/-- `nr_relevant_findings` for a `(patient_id, sample_date)` key: the sum
of `is_relevant` (`relevant == True`) over the deduplicated rows of the
group.  The classification only reads this at non-missing dates: a
missing-date row has no group in `counts` and its merged count is `NaN`
(see `classifyRows`). -/
def nrRelevant (df : List FRow) (k : ℕ × Option ℤ) : ℕ :=
  (dedupFirst [] df).countP
    (fun r =>
      decide (r.patient_id = k.1) && decide (r.sample_date = k.2) &&
        (r.relevant == some true))

/-- `nr_non_relevant_findings`: the sum of `is_non_relevant`
(`relevant == False`) over the deduplicated rows of the group. -/
def nrNonRelevant (df : List FRow) (k : ℕ × Option ℤ) : ℕ :=
  (dedupFirst [] df).countP
    (fun r =>
      decide (r.patient_id = k.1) && decide (r.sample_date = k.2) &&
        (r.relevant == some false))

/-- The row classifier `classify_finding` on concrete counts; `none` is
the `ValueError("This should not happen")` branch. -/
def classify_finding (nr nn : ℕ) : Option String :=
  if nr = 0 ∧ nn > 0 then some "cont"
  else if nr > 1 then some "poly"
  else if nr = 1 then some "mono"
  else none

/-- The `df.apply(classify_finding, axis=1)` pass: classify every row,
propagating a raised `ValueError` as `none`.  A row whose sample date is
missing was dropped from the counts `groupby`, its merged count columns
are `NaN`, all three comparisons of `classify_finding` are `False`, and
the row raises. -/
def classifyRows (nr nn : ℕ × Option ℤ → ℕ) : List FRow → Option (List FRowOut)
  | [] => some []
  | r :: rs =>
    let k := (r.patient_id, r.sample_date)
    let c : Option String :=
      match r.sample_date with
      | none => none
      | some _ => classify_finding (nr k) (nn k)
    match c, classifyRows nr nn rs with
    | some m, some os =>
      some (⟨r.patient_id, r.sample_date, r.species, r.relevant,
        nr k, nn k, m⟩ :: os)
    | _, _ => none

/-- `MicrobiologyCleaner.set_mono_poly_contamination`: merge per-group
deduplicated counts onto every row, classify each row, then force rows
whose own `relevant` is `False` to `"cont"`. -/
def set_mono_poly_contamination (df : List FRow) : Option (List FRowOut) :=
  (classifyRows (nrRelevant df) (nrNonRelevant df) df).map
    (List.map (fun o =>
      if o.relevant == some false then
        { o with mono_poly_contamination := "cont" }
      else o))

example :
    (set_mono_poly_contamination
        [⟨1, some 0, "S", some true⟩, ⟨1, some 0, "T", some true⟩,
          ⟨1, some 0, "U", some false⟩]).map
      (List.map FRowOut.mono_poly_contamination)
      = some ["poly", "poly", "cont"] := by
  decide

-- A lone row with a missing relevant flag reaches the fatal branch.
example : set_mono_poly_contamination [⟨1, some 0, "S", none⟩] = none := by
  decide

-- A relevant row with a missing sample date also reaches it: its counts
-- group is dropped, the merged counts are missing, and the row raises.
example : set_mono_poly_contamination [⟨1, none, "S", some true⟩] = none := by
  decide

/-! ## FindingClassifier stage 3: `flag_polymicrobial`

This function addresses columns by name (`patient_id_col` etc. are string
parameters, but `which_sample_ids` is built from the literal names
`"species"` and `"sample_id"`), so rows are modelled generically as
association lists from column name to an optional cell value. -/

/-- A generic dataframe row: column name to optional string cell. -/
def PRow := List (String × Option String)

instance : DecidableEq PRow := by unfold PRow; infer_instance

/-- Cell lookup; a missing column and a missing value both read as `none`. -/
def getCol (r : PRow) (c : String) : Option String :=
  match r.find? (fun p => p.1 == c) with
  | some p => p.2
  | none => none

structure PolyOut where
  row : PRow
  polymicrobial : Bool
  which_polymicrobial : Option String
  which_sample_ids : Option String
deriving DecidableEq

/-- The `(patient, sample_date)` groupby key of a row; `none` when either
key cell is missing, in which case pandas drops the row from the groupby
and the merged/transformed columns stay missing for it. -/
def polyKey (r : PRow) (pcol dcol : String) : Option (String × String) :=
  match getCol r pcol, getCol r dcol with
  | some a, some b => some (a, b)
  | _, _ => none

/-- Lexicographic strict order on character lists by code point, the order
Python uses to compare strings. -/
def charListLt : List Char → List Char → Bool
  | [], [] => false
  | [], _ :: _ => true
  | _ :: _, [] => false
  | a :: as, b :: bs =>
    if a.val < b.val then true
    else if b.val < a.val then false
    else charListLt as bs

/-- String ascending order as a boolean relation, for Python `sorted`. -/
def strLe (s t : String) : Bool := !charListLt t.data s.data

/-- Python `" | ".join(sorted(set(l)))`. -/
def joinSortedSet (l : List String) : String :=
  String.intercalate " | " (sortByLe strLe l.dedup)

/-- Python `str.replace("&", "")`. -/
def stripAmp (s : String) : String := ⟨s.data.filter (fun c => c ≠ '&')⟩

/-- The mask of `flag_polymicrobial`:
`df["mono_poly_contamination"] == "poly"`. -/
def isPoly (r : PRow) : Bool := getCol r "mono_poly_contamination" == some "poly"

/-- The `which_polymicrobial` transform for one group key: the sorted,
deduplicated, pipe-joined species (with `&` stripped) of the masked rows
in the group. -/
def whichPoly (df : List PRow) (pcol dcol scol : String) (k : String × String) :
    String :=
  joinSortedSet
    (((df.filter isPoly).filter (fun r => polyKey r pcol dcol == some k)).filterMap
      (fun r => (getCol r scol).map stripAmp))

/-- The `which_sample_ids` aggregation for one group key: the sorted,
deduplicated, pipe-joined `species:sample_id` pairs of all rows of the
group — built from the literal `"species"` and `"sample_id"` columns. -/
def whichSampleIds (df : List PRow) (pcol dcol : String) (k : String × String) :
    String :=
  joinSortedSet
    ((df.filter (fun r => polyKey r pcol dcol == some k)).filterMap
      (fun r =>
        match getCol r "species", getCol r "sample_id" with
        | some sp, some si => some (sp ++ ":" ++ si)
        | _, _ => none))

/-- `MicrobiologyCleaner.flag_polymicrobial`.  The `labnr_col` parameter is
part of the signature but, as in the source, never read. -/
def flag_polymicrobial (df : List PRow)
    (patient_id_col sample_date_col species_col labnr_col : String) :
    List PolyOut :=
  df.map (fun r =>
    let poly := isPoly r
    let wp : Option String :=
      if poly then
        (polyKey r patient_id_col sample_date_col).map
          (whichPoly df patient_id_col sample_date_col species_col)
      else none
    let ws : Option String :=
      (polyKey r patient_id_col sample_date_col).map
        (whichSampleIds df patient_id_col sample_date_col)
    ⟨r, poly, wp, ws⟩)

example :
    (flag_polymicrobial
        [[("pid", some "1"), ("date", some "d1"), ("sp", some "A&b"),
            ("species", some "A&b"), ("sample_id", some "x"),
            ("mono_poly_contamination", some "poly")],
          [("pid", some "1"), ("date", some "d1"), ("sp", some "C"),
            ("species", some "C"), ("sample_id", some "y"),
            ("mono_poly_contamination", some "poly")]]
        "pid" "date" "sp" "whatever").map
      (fun o => (o.polymicrobial, o.which_polymicrobial, o.which_sample_ids))
      = [(true, some "Ab | C", some "A&b:x | C:y"),
          (true, some "Ab | C", some "A&b:x | C:y")] := by
  decide

/-! ## `OutcomesCleaner.get_days_of_care_after_baseline`

Source: `src/data_cleaning/cleaners/episode/clean_data_outcomes.py`.
Hospitalisation rows with a missing in/out date are dropped first, and
rows whose patient id has no microbiology match are dropped by the
`sample_date <= out_date` filter right after the left merge, so the merge
is modelled as a flat map over matching microbiology rows. -/

structure HospRow where
  patient_id : ℕ
  in_date : Option ℤ
  out_date : Option ℤ
deriving DecidableEq, Repr

structure MicroRow where
  patient_id : ℕ
  episode_id : ℕ
  sample_date : ℤ
deriving DecidableEq, Repr

/-- A merged care row: hospitalisation joined with its episode id and
sample date. -/
structure CareRow where
  episode_id : ℕ
  sample_date : ℤ
  in_date : ℤ
  out_date : ℤ
deriving DecidableEq, Repr

/-- Sort key after the merge: `(episode_id, in_date, out_date)`. -/
def careLe (a b : CareRow) : Bool :=
  decide (a.episode_id < b.episode_id) ||
    (decide (a.episode_id = b.episode_id) &&
      (decide (a.in_date < b.in_date) ||
        (decide (a.in_date = b.in_date) && decide (a.out_date ≤ b.out_date))))

/-- `groupby("episode_id")[...].shift(1)`: attach to every row the
`out_date` of the previous row of the same episode, in frame order. -/
def attachPrevOut (m : ℕ → Option ℤ) : List CareRow → List (CareRow × Option ℤ)
  | [] => []
  | r :: rs =>
    (r, m r.episode_id) ::
      attachPrevOut (fun q => if q = r.episode_id then some r.out_date else m q) rs

/-- `duplicated()` on the episode column: drop the first row of every
episode id (in frame order), keeping the later duplicates. -/
def dropFirstPerEpisode (seen : List ℕ) :
    List (CareRow × Option ℤ) → List (CareRow × Option ℤ)
  | [] => []
  | p :: ps =>
    if p.1.episode_id ∈ seen then p :: dropFirstPerEpisode seen ps
    else dropFirstPerEpisode (p.1.episode_id :: seen) ps

/-- `groupby("episode_id").cumcount() == 0` overwrite: zero the overlap of
the first remaining row of every episode. -/
def zeroFirstOverlap (seen : List ℕ) :
    List (CareRow × Option ℤ) → List (CareRow × Option ℤ)
  | [] => []
  | p :: ps =>
    if p.1.episode_id ∈ seen then p :: zeroFirstOverlap seen ps
    else (p.1, some 0) :: zeroFirstOverlap (p.1.episode_id :: seen) ps

/-- Whole days of a second difference, `Timedelta.days`. -/
def tdDays (s : ℤ) : ℤ := Int.fdiv s 86400

/-- `OutcomesCleaner.get_days_of_care_after_baseline`: merge episode data
onto hospitalisations, keep stays that end at or after the sample date,
sort, record for each row the previous out-date per episode, drop each
first stay of each episode (the anchor), window the rest to
`first_out_date + days_after_baseline` days, clip out-dates to that limit,
subtract the overlap with the recorded previous stay (zeroed for the first
remaining row per episode), and sum per episode.  The per-episode sums are
returned keyed by episode id in ascending order; a missing overlap is
skipped by the pandas sum. -/
def get_days_of_care_after_baseline (hosp : List HospRow) (micro : List MicroRow)
    (days_after_baseline : ℤ) : List (ℕ × ℤ) :=
  let merged : List CareRow :=
    (hosp.filterMap (fun h =>
      match h.in_date, h.out_date with
      | some i, some o => some (h.patient_id, i, o)
      | _, _ => none)).flatMap (fun h =>
        (micro.filter (fun m => m.patient_id == h.1)).map
          (fun m => ⟨m.episode_id, m.sample_date, h.2.1, h.2.2⟩))
  let kept := merged.filter (fun r => decide (r.sample_date ≤ r.out_date))
  let sorted := sortByLe careLe kept
  let withPrev := attachPrevOut (fun _ => none) sorted
  let firstOut : ℕ → Option ℤ :=
    fun e => (sorted.find? (fun r => r.episode_id == e)).map (·.out_date)
  let dropped := dropFirstPerEpisode [] withPrev
  let windowed := dropped.filter (fun p =>
    match firstOut p.1.episode_id with
    | some fo => decide (p.1.in_date < fo + days_after_baseline * 86400)
    | none => false)
  let clipped := windowed.map (fun p =>
    match firstOut p.1.episode_id with
    | some fo =>
      ({ p.1 with out_date := min p.1.out_date (fo + days_after_baseline * 86400) },
        p.2)
    | none => p)
  let withOverlap : List (CareRow × Option ℤ) :=
    clipped.map (fun p =>
      (p.1, p.2.map (fun po => max 0 (tdDays (po - p.1.in_date) + 1))))
  let zeroed := zeroFirstOverlap [] withOverlap
  let nets : List (ℕ × Option ℤ) :=
    zeroed.map (fun p =>
      (p.1.episode_id,
        p.2.map (fun ov => tdDays (p.1.out_date - p.1.in_date) + 1 - ov)))
  let eids := (sortByLe (fun a b => decide (a ≤ b)) (nets.map (·.1))).dedup
  eids.map (fun e =>
    (e, (nets.filterMap (fun p => if p.1 = e then p.2 else none)).sum))

-- The documented positive case: anchor stay day 1 to day 5 (excluded),
-- second stay day 4 to day 10 inside the window, overlap zeroed for the
-- first retained row, net 7 days.
example :
    get_days_of_care_after_baseline
        [⟨1, some (1 * 86400), some (5 * 86400)⟩,
          ⟨1, some (4 * 86400), some (10 * 86400)⟩]
        [⟨1, 9, 1 * 86400⟩] 30
      = [(9, 7)] := by
  decide

/-- Default row used by positional `List.getD` statements about
`determine_episode` inputs. -/
def mrowDefault : MRow := ⟨0, none⟩

/-- Default row used by positional `List.getD` statements about
`determine_episode` outputs. -/
def eprowDefault : EpRow := ⟨0, none, false, 0, ""⟩

/-- The per-patient episode numbers of a segmented frame, in frame order:
the `episode_nr` values of the rows of patient `p`. -/
def nrsOf (p : ℕ) (l : List EpRow) : List ℕ :=
  l.filterMap (fun e => if e.patient_id = p then some e.episode_nr else none)

/-- The per-patient episode identifiers of a segmented frame, in frame
order. -/
def idsOf (p : ℕ) (l : List EpRow) : List String :=
  l.filterMap (fun e => if e.patient_id = p then some e.episode_id else none)

/-- All episode identifiers of a segmented frame, in frame order. -/
def episodeIds (l : List EpRow) : List String := l.map (fun e => e.episode_id)

/-- A staircase from `a`: a list of naturals whose first element is `a` or
`a + 1` and whose successive elements grow by 0 or 1.  The per-patient
cumulative episode numbers form such a staircase. -/
inductive Stair : ℕ → List ℕ → Prop
  | nil (a : ℕ) : Stair a []
  | cons {a c : ℕ} {l : List ℕ} : (c = a ∨ c = a + 1) → Stair c l →
      Stair a (c :: l)

/-! ## Concrete inputs used by counterexamples and witnesses -/

/-- The Scenario 2 intervals: `[(2021-01-01, 2021-01-03), (2021-01-02,
2021-01-05)]`, with day 0 standing for 2021-01-01 (midnight timestamps). -/
def scenario2Intervals : List (ℤ × ℤ) := [(0, 2 * 86400), (86400, 4 * 86400)]

/-- Three flagged rows of one `(patient, date, species)` group that share a
single sample identifier: one distinct identifier, three identifier rows. -/
def c2Input : List CRow :=
  [⟨1, 0, "S", some "A", some true⟩, ⟨1, 0, "S", some "A", some true⟩,
    ⟨1, 0, "S", some "A", some true⟩]

/-- One patient with a hospitalisation from day 10 to day 20 and a second
patient with a hospitalisation from day 5 to day 6, gap tolerance 0. -/
def c3Input : List BlockRow :=
  [⟨1, 10 * 86400, 20 * 86400⟩, ⟨2, 5 * 86400, 6 * 86400⟩]

/-- Hospitalisations of one patient: an anchor stay on day 0, a long stay
from day 1 to day 100, and a short stay from day 2 to day 3 inside it. -/
def c8Hosp : List HospRow :=
  [⟨1, some 0, some 0⟩, ⟨1, some (1 * 86400), some (100 * 86400)⟩,
    ⟨1, some (2 * 86400), some (3 * 86400)⟩]

/-- The single microbiology row for `c8Hosp`: episode 4 with its sample
taken on day 0. -/
def c8Micro : List MicroRow := [⟨1, 4, 0⟩]

/-! ## Claim theorems -/

/-- C1.  The interval-merge duration computation does merge the Scenario 2
intervals into the single interval 2021-01-01 to 2021-01-05, but its `+1`
is one second, not one day: the total is `(4 * 86400 + 1) / 86400` days —
about 4.0000116, not the 5 days that inclusive day counting would give, so
a same-day interval counts `1/86400` of a day rather than 1 day.  This
records the code-level behaviour behind the claim; the claim (and the
inclusive-day intent documented in the sibling
`calculate_hospitalisation_times`, which adds one whole day) classifies
this as a bug in the code. -/
theorem c1_duration_adds_one_second_not_one_day :
    merge_intervals scenario2Intervals = [(0, 4 * 86400)] ∧
      calculate_duration scenario2Intervals = some ((345601 : ℚ) / 86400) ∧
      ((345601 : ℚ) / 86400) ≠ 5 := by
  refine ⟨by decide, ?_, by norm_num⟩
  rw [calculate_duration,
    show duration_total_seconds scenario2Intervals = some 345601 from by decide]
  norm_num

/-- C2, counterexample.  With method `bottle`, the claim says a flagged row
is irrelevant exactly when its group holds fewer than 3 distinct sample
identifiers.  On three rows of one group sharing one identifier the group
has 1 distinct identifier (fewer than 3), yet the code marks the rows
relevant, because it counts identifier rows (`transform("count")`), not
distinct identifiers. -/
theorem c2_counterexample_count_not_distinct :
    ¬ (∀ out, set_contaminant_relevant c2Input "bottle" = some out →
        ∀ o ∈ out, o.potential_contaminant = some true →
          (o.relevant = false ↔
            sidNunique c2Input (o.patient_id, o.sample_date, o.species) < 3)) := by
  intro h
  have h2 := h ((c2Input.map (fun r =>
      ⟨r.patient_id, r.sample_date, r.species, r.sid, r.potential_contaminant,
        true⟩)))
    (by decide)
    ⟨1, 0, "S", some "A", some true, true⟩ (by decide) (by decide)
  have h3 : sidNunique c2Input (1, 0, "S") < 3 := by decide
  have h4 := h2.mpr h3
  exact absurd h4 (by decide)

/-- C2, amended.  With method `bottle`, a flagged row is marked
`relevant = False` exactly when its `(patient_id, sample_date, species)`
group — taken among the rows flagged as potential contaminants — contains
fewer than 3 rows with a non-missing sample identifier (identifiers are
counted with multiplicity, not distinctly); rows not flagged as potential
contaminants always get `relevant = True`. -/
theorem c2_bottle_relevance_amended (df : List CRow) (out : List CRowOut)
    (h : set_contaminant_relevant df "bottle" = some out) :
    ∀ o ∈ out,
      (o.potential_contaminant = some true →
        (o.relevant = false ↔
          bottleGroupCount df (o.patient_id, o.sample_date, o.species) < 3)) ∧
      (o.potential_contaminant ≠ some true → o.relevant = true) := by
  have hout : out = df.map (fun r =>
      ⟨r.patient_id, r.sample_date, r.species, r.sid, r.potential_contaminant,
        if isFlagged r then !decide (bottleGroupCount df (crowKey r) < 3)
        else true⟩) := by
    have hb : set_contaminant_relevant df "bottle"
        = some (df.map (fun r =>
          ⟨r.patient_id, r.sample_date, r.species, r.sid,
            r.potential_contaminant,
            if isFlagged r then !decide (bottleGroupCount df (crowKey r) < 3)
            else true⟩)) := rfl
    rw [hb] at h
    exact (Option.some.injEq _ _ ▸ h).symm
  subst hout
  intro o ho
  rcases List.mem_map.mp ho with ⟨r, _, rfl⟩
  dsimp only
  constructor
  · intro hpc
    have hf : isFlagged r = true := by
      simp [isFlagged, hpc]
    simp only [hf, if_true, crowKey]
    by_cases hc : bottleGroupCount df (r.patient_id, r.sample_date, r.species) < 3
    · simp [hc]
    · simp [hc]
  · intro hpc
    have hf : isFlagged r = false := by
      simp only [isFlagged]
      cases hr : r.potential_contaminant with
      | none => rfl
      | some b =>
        cases b with
        | true => exact absurd hr hpc
        | false => rfl
    simp [hf]

/-- C2, witness for the amended theorem: on the three-row input the rows
are flagged and their group has 3 identifier rows, so they come out
relevant, and an unflagged row comes out relevant. -/
theorem c2_bottle_relevance_amended_witness :
    ((⟨1, 0, "S", some "A", some true, true⟩ : CRowOut).relevant = false ↔
      bottleGroupCount c2Input (1, 0, "S") < 3) :=
  (c2_bottle_relevance_amended c2Input
    (c2Input.map (fun r =>
      ⟨r.patient_id, r.sample_date, r.species, r.sid, r.potential_contaminant,
        true⟩))
    (by decide)
    ⟨1, 0, "S", some "A", some true, true⟩ (by decide)).1 (by decide)

/-- C3.  The claim says the first row of every patient starts a new block
and gets `block_id = 1`.  In the code the running-max series is shifted
globally, not per patient, so the first row of patient 2 is compared
against the cumulative max stop of patient 1: with patient 1 staying days
10 to 20 and patient 2 staying days 5 to 6, the start of patient 2 does
not exceed the leaked max 20, no new block is flagged, and the first row
of patient 2 gets `block_id = 0`.  The claim (and the per-patient intent
of the docstring and of the grouped cumulative max) classifies this as a
bug in the code. -/
theorem c3_block_id_leaks_across_patients :
    (assign_block_id c3Input 0).map (fun o => (o.patient_id, o.block_id))
      = [(1, 1), (2, 0)] ∧ (2, 0) ≠ ((2 : ℕ), (1 : ℕ)) := by
  exact ⟨by decide, by decide⟩

/-- C8.  There is an input on which `get_days_of_care_after_baseline`
returns a negative per-episode total: the overlap subtracted from the
short day 2 to day 3 stay is computed from the unclipped out-date (day
100) of the previous sorted stay, while the days counted for each stay are
clipped to the 10-day window, so episode 4 sums to 10 - 97 = -87 days. -/
theorem c8_days_of_care_negative_total :
    ∃ pr ∈ get_days_of_care_after_baseline c8Hosp c8Micro 10, pr.2 < 0 := by
  refine ⟨(4, -87), by decide, by decide⟩

/-- C10.  `flag_polymicrobial` never reads its `labnr_col` parameter — the
`which_sample_ids` column is built from the literal `species` and
`sample_id` columns — so two runs differing only in that argument produce
identical outputs. -/
theorem c10_flag_polymicrobial_ignores_labnr_col
    (df : List PRow) (patient_id_col sample_date_col species_col : String)
    (labnr1 labnr2 : String) :
    flag_polymicrobial df patient_id_col sample_date_col species_col labnr1
      = flag_polymicrobial df patient_id_col sample_date_col species_col labnr2 :=
  rfl


/-! ## Helper lemmas for the mono/poly/contamination stage -/

theorem dedupFirst_subset :
    ∀ (seen : List (ℕ × Option ℤ × String)) (l : List FRow) (r : FRow),
      r ∈ dedupFirst seen l → r ∈ l := by
  intro seen l
  induction l generalizing seen with
  | nil => intro r h; simp [dedupFirst] at h
  | cons x xs ih =>
    intro r h
    simp only [dedupFirst] at h
    by_cases hk : (x.patient_id, x.sample_date, x.species) ∈ seen
    · rw [if_pos hk] at h
      exact List.mem_cons_of_mem _ (ih seen r h)
    · rw [if_neg hk] at h
      rcases List.mem_cons.mp h with h | h
      · exact h ▸ List.mem_cons_self _ _
      · exact List.mem_cons_of_mem _ (ih _ r h)

theorem dedupFirst_covers :
    ∀ (seen : List (ℕ × Option ℤ × String)) (l : List FRow) (r : FRow),
      r ∈ l → (r.patient_id, r.sample_date, r.species) ∉ seen →
      ∃ r2 ∈ dedupFirst seen l,
        r2.patient_id = r.patient_id ∧ r2.sample_date = r.sample_date ∧
          r2.species = r.species := by
  intro seen l
  induction l generalizing seen with
  | nil => intro r h; simp at h
  | cons x xs ih =>
    intro r hr hs
    simp only [dedupFirst]
    by_cases hk : (x.patient_id, x.sample_date, x.species) ∈ seen
    · rw [if_pos hk]
      rcases List.mem_cons.mp hr with rfl | hr
      · exact absurd hk hs
      · exact ih seen r hr hs
    · rw [if_neg hk]
      rcases List.mem_cons.mp hr with rfl | hr
      · exact ⟨r, List.mem_cons_self _ _, rfl, rfl, rfl⟩
      · by_cases hsame :
          (r.patient_id, r.sample_date, r.species)
            = (x.patient_id, x.sample_date, x.species)
        · simp only [Prod.ext_iff] at hsame
          exact ⟨x, List.mem_cons_self _ _, hsame.1.symm, hsame.2.1.symm,
            hsame.2.2.symm⟩
        · have hs2 : (r.patient_id, r.sample_date, r.species)
              ∉ (x.patient_id, x.sample_date, x.species) :: seen := by
            intro hmem
            rcases List.mem_cons.mp hmem with hx | hx
            · exact hsame hx
            · exact hs hx
          obtain ⟨r2, hr2, heq⟩ := ih _ r hr hs2
          exact ⟨r2, List.mem_cons_of_mem _ hr2, heq⟩

theorem classify_finding_cases (a b : ℕ) (m : String)
    (h : classify_finding a b = some m) :
    m = "cont" ∨ m = "poly" ∨ m = "mono" := by
  unfold classify_finding at h
  split_ifs at h <;> simp only [Option.some.injEq] at h
  · exact Or.inl h.symm
  · exact Or.inr (Or.inl h.symm)
  · exact Or.inr (Or.inr h.symm)

theorem classify_finding_iff (a b : ℕ) (m : String)
    (h : classify_finding a b = some m) :
    (m = "poly" ↔ 1 < a) ∧ (m = "mono" ↔ a = 1) := by
  unfold classify_finding at h
  split_ifs at h with h1 h2 h3 <;> simp only [Option.some.injEq] at h <;> subst h
  · constructor
    · constructor
      · intro hx; exact absurd hx (by decide)
      · intro hx; omega
    · constructor
      · intro hx; exact absurd hx (by decide)
      · intro hx; omega
  · constructor
    · exact ⟨fun _ => h2, fun _ => rfl⟩
    · constructor
      · intro hx; exact absurd hx (by decide)
      · intro hx; omega
  · constructor
    · constructor
      · intro hx; exact absurd hx (by decide)
      · intro hx; omega
    · exact ⟨fun _ => h3, fun _ => rfl⟩

theorem classify_finding_ne_none (a b : ℕ) (h : 0 < a ∨ 0 < b) :
    classify_finding a b ≠ none := by
  unfold classify_finding
  split_ifs with h1 h2 h3 <;> simp
  omega

theorem classifyRows_spec (A B : ℕ × Option ℤ → ℕ) :
    ∀ (l : List FRow) (os : List FRowOut),
      classifyRows A B l = some os → ∀ o ∈ os,
        classify_finding (A (o.patient_id, o.sample_date))
            (B (o.patient_id, o.sample_date))
          = some o.mono_poly_contamination := by
  intro l
  induction l with
  | nil =>
    intro os h o ho
    simp only [classifyRows, Option.some.injEq] at h
    subst h
    cases ho
  | cons r rs ih =>
    intro os h o ho
    cases hd : r.sample_date with
    | none => simp [classifyRows, hd] at h
    | some d =>
      cases hc : classify_finding (A (r.patient_id, some d))
          (B (r.patient_id, some d)) with
      | none => simp [classifyRows, hd, hc] at h
      | some m =>
        cases hrec : classifyRows A B rs with
        | none => simp [classifyRows, hd, hc, hrec] at h
        | some os2 =>
          simp only [classifyRows, hd, hc, hrec, Option.some.injEq] at h
          subst h
          rcases List.mem_cons.mp ho with rfl | ho
          · exact hc
          · exact ih os2 hrec o ho

theorem classifyRows_isSome (A B : ℕ × Option ℤ → ℕ) :
    ∀ l : List FRow,
      (∀ r ∈ l, r.sample_date ≠ none) →
      (∀ r ∈ l, classify_finding (A (r.patient_id, r.sample_date))
          (B (r.patient_id, r.sample_date)) ≠ none) →
      ∃ os, classifyRows A B l = some os := by
  intro l
  induction l with
  | nil => intro _ _; exact ⟨[], rfl⟩
  | cons r rs ih =>
    intro hdates h
    obtain ⟨d, hd⟩ :=
      Option.ne_none_iff_exists'.mp (hdates r (List.mem_cons_self _ _))
    obtain ⟨m, hm⟩ := Option.ne_none_iff_exists'.mp (h r (List.mem_cons_self _ _))
    rw [hd] at hm
    obtain ⟨os, hos⟩ := ih (fun x hx => hdates x (List.mem_cons_of_mem _ hx))
      (fun x hx => h x (List.mem_cons_of_mem _ hx))
    exact ⟨⟨r.patient_id, some d, r.species, r.relevant,
        A (r.patient_id, some d), B (r.patient_id, some d), m⟩ :: os,
      by simp [classifyRows, hd, hm, hos]⟩

/-- C4.  After `set_mono_poly_contamination` (counting findings over rows
deduplicated to one per `(patient_id, sample_date, species)`), every output
classification is `mono`, `poly` or `cont`; every row whose own `relevant`
is `False` is forced to `cont`; and a row with `relevant = True` is `poly`
exactly when its `(patient_id, sample_date)` group holds more than one
relevant deduplicated finding, `mono` exactly when it holds exactly one. -/
theorem c4_mono_poly_contamination_classification
    (df : List FRow) (out : List FRowOut)
    (h : set_mono_poly_contamination df = some out) :
    ∀ o ∈ out,
      (o.mono_poly_contamination = "mono" ∨ o.mono_poly_contamination = "poly" ∨
        o.mono_poly_contamination = "cont") ∧
      (o.relevant = some false → o.mono_poly_contamination = "cont") ∧
      (o.relevant = some true →
        ((o.mono_poly_contamination = "poly" ↔
            1 < nrRelevant df (o.patient_id, o.sample_date)) ∧
          (o.mono_poly_contamination = "mono" ↔
            nrRelevant df (o.patient_id, o.sample_date) = 1))) := by
  simp only [set_mono_poly_contamination] at h
  obtain ⟨os, hos, rfl⟩ := Option.map_eq_some'.mp h
  intro o2 ho2
  rcases List.mem_map.mp ho2 with ⟨o, ho, rfl⟩
  have hcf := classifyRows_spec (nrRelevant df) (nrNonRelevant df) df os hos o ho
  by_cases hrel : o.relevant = some false
  · simp only [hrel, beq_self_eq_true, if_true]
    refine ⟨Or.inr (Or.inr (by trivial)), fun _ => by trivial, fun hx => ?_⟩
    have hx2 : (some false : Option Bool) = some true := hx
    exact absurd hx2 (by decide)
  · have hbeq : (o.relevant == some false) = false := by
      simp [hrel]
    simp only [hbeq, Bool.false_eq_true, if_false]
    refine ⟨?_, fun hx => absurd hx hrel, fun _ => ?_⟩
    · rcases classify_finding_cases _ _ _ hcf with hm | hm | hm
      · exact Or.inr (Or.inr hm)
      · exact Or.inr (Or.inl hm)
      · exact Or.inl hm
    · exact classify_finding_iff _ _ _ hcf

/-- C4, witness: on the single relevant finding `(1, 0, S)` the group has
exactly one relevant deduplicated finding and the row is classified
`mono`, settling both biconditionals at a concrete input. -/
theorem c4_mono_poly_contamination_classification_witness :
    (("mono" : String) = "poly" ↔
        1 < nrRelevant [⟨1, some 0, "S", some true⟩] (1, some 0)) ∧
      (("mono" : String) = "mono" ↔
        nrRelevant [⟨1, some 0, "S", some true⟩] (1, some 0) = 1) :=
  (c4_mono_poly_contamination_classification
      [⟨1, some 0, "S", some true⟩] [⟨1, some 0, "S", some true, 1, 0, "mono"⟩]
      (by decide) ⟨1, some 0, "S", some true, 1, 0, "mono"⟩ (by decide)).2.2
    (by decide)

/-- C5, counterexample.  The claim says a boolean `relevant` on every row
makes the fatal branch unreachable.  It is not: a single row with
`relevant = True` but a missing (`NaT`) sample date is dropped by the
counts `groupby` (`dropna=True`), the `how="left"` merge leaves its count
columns `NaN`, every comparison in `classify_finding` is `False`, and the
function raises the `ValueError` — with every `relevant` boolean. -/
theorem c5_counterexample_nat_date_raises :
    (∀ r ∈ ([⟨1, none, "S", some true⟩] : List FRow), r.relevant ≠ none) ∧
      set_mono_poly_contamination [⟨1, none, "S", some true⟩] = none :=
  ⟨by decide, by decide⟩

/-- C5, amended.  When every input row carries a boolean `relevant` value
(as `set_contaminant_relevant` guarantees through its final
`fillna(True)`) and a non-missing sample date (the grouping key), the
`ValueError` branch of `classify_finding` is unreachable and
`set_mono_poly_contamination` never raises: each row has a deduplicated
representative with the same key, and that representative counts into the
relevant or the non-relevant tally of the group. -/
theorem c5_fatal_branch_unreachable (df : List FRow)
    (hb : ∀ r ∈ df, r.relevant ≠ none)
    (hdates : ∀ r ∈ df, r.sample_date ≠ none) :
    (set_mono_poly_contamination df).isSome := by
  have hcls : ∀ r ∈ df,
      classify_finding (nrRelevant df (r.patient_id, r.sample_date))
        (nrNonRelevant df (r.patient_id, r.sample_date)) ≠ none := by
    intro r hr
    obtain ⟨r2, hmem, hp, hd, _⟩ :=
      dedupFirst_covers [] df r hr (by simp)
    have hr2 : r2 ∈ df := dedupFirst_subset [] df r2 hmem
    apply classify_finding_ne_none
    cases hrel2 : r2.relevant with
    | none => exact absurd hrel2 (hb r2 hr2)
    | some b =>
      cases b with
      | true =>
        left
        unfold nrRelevant
        refine List.countP_pos_iff.mpr ⟨r2, hmem, ?_⟩
        simp [hp, hd, hrel2]
      | false =>
        right
        unfold nrNonRelevant
        refine List.countP_pos_iff.mpr ⟨r2, hmem, ?_⟩
        simp [hp, hd, hrel2]
  obtain ⟨os, hos⟩ :=
    classifyRows_isSome (nrRelevant df) (nrNonRelevant df) df hdates hcls
  simp [set_mono_poly_contamination, hos]

/-- C5, witness for the amended theorem: a concrete frame whose rows all
carry boolean `relevant` values and concrete sample dates, on which the
function returns a value. -/
theorem c5_fatal_branch_unreachable_witness :
    (set_mono_poly_contamination
        [⟨1, some 0, "S", some true⟩, ⟨1, some 0, "T", some false⟩]).isSome :=
  c5_fatal_branch_unreachable
    [⟨1, some 0, "S", some true⟩, ⟨1, some 0, "T", some false⟩]
    (by decide) (by decide)

/-! ## Helper lemmas for the past-duration aggregator -/

theorem insertLe_ne_nil (le : α → α → Bool) (x : α) (l : List α) :
    insertLe le x l ≠ [] := by
  cases l with
  | nil => simp [insertLe]
  | cons y ys =>
    simp only [insertLe]
    split <;> simp

theorem sortByLe_eq_nil_iff (le : α → α → Bool) (l : List α) :
    sortByLe le l = [] ↔ l = [] := by
  cases l with
  | nil => simp [sortByLe]
  | cons x xs =>
    simp only [sortByLe]
    constructor
    · intro h; exact absurd h (insertLe_ne_nil le x _)
    · intro h; cases h

theorem calculate_duration_isSome (l : List (ℤ × ℤ)) (h : l ≠ []) :
    ∃ q, calculate_duration l = some q := by
  cases hs : sortByLe (fun a b => decide (a.1 ≤ b.1)) l with
  | nil => exact absurd ((sortByLe_eq_nil_iff _ l).mp hs) h
  | cons f rest =>
    refine ⟨(((mergeFold f rest).map (fun iv => iv.2 - iv.1 + 1)).sum : ℤ)
        / (24 * 60 * 60), ?_⟩
    rw [calculate_duration, duration_total_seconds, hs]
    rfl

theorem processGroup_spec (df : List HRow) (k : ℕ × ℕ × ℤ) (tb : ℤ) :
    ∃ r, processGroup df k tb = some r ∧ r.episode_id = k.1 ∧
      r.sample_date = k.2.2 ∧
      (keptIntervals df k tb = [] → r = ⟨k.1, k.2.2, 0⟩) := by
  cases hkept : keptIntervals df k tb with
  | nil =>
    refine ⟨⟨k.1, k.2.2, 0⟩, ?_, rfl, rfl, fun _ => rfl⟩
    rw [processGroup, hkept]
  | cons iv ivs =>
    obtain ⟨q, hq⟩ := calculate_duration_isSome (iv :: ivs) (by simp)
    refine ⟨⟨k.1, k.2.2, q⟩, ?_, rfl, rfl,
      fun hc => absurd hc (by simp [hkept])⟩
    simp only [processGroup, hkept, hq, Option.map_some']

theorem optionMapM_processGroup (df : List HRow) (tb : ℤ) :
    ∀ ks : List (ℕ × ℕ × ℤ),
      ∃ out, optionMapM (fun k => processGroup df k tb) ks = some out ∧
        out.map (fun o => (o.episode_id, o.sample_date))
          = ks.map (fun k => (k.1, k.2.2)) ∧
        ∀ k ∈ ks, keptIntervals df k tb = [] →
          (⟨k.1, k.2.2, 0⟩ : PastOut) ∈ out := by
  intro ks
  induction ks with
  | nil => exact ⟨[], rfl, rfl, by simp⟩
  | cons k ks ih =>
    obtain ⟨r, hr, he, hd, hz⟩ := processGroup_spec df k tb
    obtain ⟨out, hout, hmap, hmem⟩ := ih
    refine ⟨r :: out, ?_, ?_, ?_⟩
    · simp [optionMapM, hr, hout]
    · simp [hmap, he, hd]
    · intro k2 hk2 hkept
      rcases List.mem_cons.mp hk2 with rfl | hk2
      · exact (hz hkept) ▸ List.mem_cons_self _ _
      · exact List.mem_cons_of_mem _ (hmem k2 hk2 hkept)

/-- C6.  `calculate_hosp_duration_past` never raises, and it emits exactly
one output row per `(episode_id, patient_id, sample_date)` group of its
input, in group order: the output keys are exactly the group keys, and a
group whose intervals are all filtered out or vanish under clipping still
yields an explicit row with duration 0, clipped-away intervals being
silently excluded. -/
theorem c6_one_row_per_group_zero_fallback (df : List HRow) (tb : ℤ) :
    (calculate_hosp_duration_past df tb).isSome ∧
      ((calculate_hosp_duration_past df tb).getD []).map
          (fun o => (o.episode_id, o.sample_date))
        = (hospGroupKeys df).map (fun k => (k.1, k.2.2)) ∧
      ∀ k ∈ hospGroupKeys df, keptIntervals df k tb = [] →
        (⟨k.1, k.2.2, 0⟩ : PastOut) ∈ (calculate_hosp_duration_past df tb).getD [] := by
  obtain ⟨out, hout, hmap, hmem⟩ := optionMapM_processGroup df tb (hospGroupKeys df)
  rw [calculate_hosp_duration_past, hout]
  exact ⟨rfl, hmap, hmem⟩

/-- C6, witness: a single hospitalisation lying entirely after the
baseline is clipped away, and the function still emits its group row with
duration 0. -/
theorem c6_one_row_per_group_zero_fallback_witness :
    (⟨7, 0, 0⟩ : PastOut) ∈
      (calculate_hosp_duration_past [⟨7, 3, 0, 10 * 86400, 20 * 86400⟩] 0).getD [] :=
  (c6_one_row_per_group_zero_fallback [⟨7, 3, 0, 10 * 86400, 20 * 86400⟩] 0).2.2
    (7, 3, 0) (by decide) (by decide)


/-! ## Helper lemmas for the episode segmenter -/

theorem epUpdCnt_eq (cnt : ℕ → ℕ) (r : MRow) (c : ℕ) {p : ℕ}
    (h : r.patient_id = p) : epUpdCnt cnt r c p = c := by
  simp [epUpdCnt, h]

theorem epUpdCnt_ne (cnt : ℕ → ℕ) (r : MRow) (c : ℕ) {p : ℕ}
    (h : ¬r.patient_id = p) : epUpdCnt cnt r c p = cnt p := by
  simp [epUpdCnt]
  intro h2
  exact absurd h2.symm h

theorem epAux_adjacent (t : ℤ) :
    ∀ (rs : List MRow) (pp : Option ℕ) (ld : ℕ → Option (Option ℤ))
      (cnt : ℕ → ℕ) (i : ℕ),
      i + 1 < rs.length →
      (rs.getD (i + 1) mrowDefault).patient_id
        = (rs.getD i mrowDefault).patient_id →
      ((rs.getD (i + 1) mrowDefault).sample_date = none ∨
        (rs.getD i mrowDefault).sample_date = none) →
      ((epAux t pp ld cnt rs).getD (i + 1) eprowDefault).new_episode = false ∧
        ((epAux t pp ld cnt rs).getD (i + 1) eprowDefault).episode_nr
          = ((epAux t pp ld cnt rs).getD i eprowDefault).episode_nr ∧
        ((epAux t pp ld cnt rs).getD (i + 1) eprowDefault).episode_id
          = ((epAux t pp ld cnt rs).getD i eprowDefault).episode_id := by
  intro rs
  induction rs with
  | nil => intro pp ld cnt i hlen; simp at hlen
  | cons r1 rest ih =>
    intro pp ld cnt i hlen hpid hdate
    cases i with
    | succ j =>
      have hlen2 : j + 1 < rest.length := by simpa using hlen
      have hpid2 := hpid
      have hdate2 := hdate
      simp only [List.getD_cons_succ] at hpid2 hdate2
      simpa only [epAux, List.getD_cons_succ] using
        ih (some r1.patient_id) (epUpdLd ld r1)
          (epUpdCnt cnt r1 (cnt r1.patient_id +
            (if patientChange pp r1 || gapFlag t ld r1 then 1 else 0)))
          j hlen2 hpid2 hdate2
    | zero =>
      cases rest with
      | nil => simp at hlen
      | cons r2 rest2 =>
        simp only [List.getD_cons_succ, List.getD_cons_zero] at hpid hdate
        have hpc : patientChange (some r1.patient_id) r2 = false := by
          simp [patientChange, hpid]
        have hld : epUpdLd ld r1 r2.patient_id = some r1.sample_date := by
          rw [epUpdLd, hpid]
          simp
        have hdd : daysDiff (epUpdLd ld r1) r2 = none := by
          rw [daysDiff, hld]
          rcases hdate with h2 | h1
          · rw [h2]
            cases r1.sample_date <;> rfl
          · rw [h1]
        have hflag : (patientChange (some r1.patient_id) r2 ||
            gapFlag t (epUpdLd ld r1) r2) = false := by
          rw [hpc, gapFlag, hdd]
          rfl
        have hcnt : epUpdCnt cnt r1
            (cnt r1.patient_id +
              (if patientChange pp r1 || gapFlag t ld r1 then 1 else 0))
            r2.patient_id
            = cnt r1.patient_id +
              (if patientChange pp r1 || gapFlag t ld r1 then 1 else 0) :=
          epUpdCnt_eq _ _ _ hpid.symm
        refine ⟨?_, ?_, ?_⟩ <;>
          simp [epAux, hflag, hcnt, hpid, epUpdCnt]

/-- C9.  In `determine_episode`, a row whose sample date failed to parse
(`NaT`) never starts a new episode inside a patient: on the sorted frame,
whenever two adjacent rows belong to the same patient and either of their
dates is missing, the per-patient day gap is undefined, the `days_diff >
time` comparison is `False`, and the later row is absorbed into the
current episode of the patient — it keeps the episode number and episode
id of the row before it, for every gap threshold.  Only a patient-id
change can open a new episode at such a row. -/
theorem c9_nat_rows_absorbed_into_episode (df : List MRow) (time : ℤ) (i : ℕ)
    (hlen : i + 1 < (sortByLe mrowLe df).length)
    (hpid : ((sortByLe mrowLe df).getD (i + 1) mrowDefault).patient_id
      = ((sortByLe mrowLe df).getD i mrowDefault).patient_id)
    (hdate : ((sortByLe mrowLe df).getD (i + 1) mrowDefault).sample_date = none ∨
      ((sortByLe mrowLe df).getD i mrowDefault).sample_date = none) :
    ((determine_episode df time).getD (i + 1) eprowDefault).new_episode = false ∧
      ((determine_episode df time).getD (i + 1) eprowDefault).episode_nr
        = ((determine_episode df time).getD i eprowDefault).episode_nr ∧
      ((determine_episode df time).getD (i + 1) eprowDefault).episode_id
        = ((determine_episode df time).getD i eprowDefault).episode_id :=
  epAux_adjacent time (sortByLe mrowLe df) none (fun _ => none) (fun _ => 0)
    i hlen hpid hdate

/-- C9, witness: patient 1 has a dated row and then a `NaT` row; the `NaT`
row does not start a new episode and keeps episode number and id. -/
theorem c9_nat_rows_absorbed_into_episode_witness :
    ((determine_episode [⟨1, some 0⟩, ⟨1, none⟩] 30).getD 1 eprowDefault).new_episode
        = false ∧
      ((determine_episode [⟨1, some 0⟩, ⟨1, none⟩] 30).getD 1
            eprowDefault).episode_nr
        = ((determine_episode [⟨1, some 0⟩, ⟨1, none⟩] 30).getD 0
            eprowDefault).episode_nr ∧
      ((determine_episode [⟨1, some 0⟩, ⟨1, none⟩] 30).getD 1
            eprowDefault).episode_id
        = ((determine_episode [⟨1, some 0⟩, ⟨1, none⟩] 30).getD 0
            eprowDefault).episode_id :=
  c9_nat_rows_absorbed_into_episode [⟨1, some 0⟩, ⟨1, none⟩] 30 0
    (by decide) (by decide) (by decide)

theorem add_ite_one_cases (n : ℕ) (b : Bool) :
    (n + if b then 1 else 0) = n ∨ (n + if b then 1 else 0) = n + 1 := by
  cases b <;> simp

theorem stair_mono {a : ℕ} {l : List ℕ} (h : Stair a l) :
    ∀ c ∈ l, a ≤ c := by
  induction h with
  | nil => simp
  | cons hc _ ih =>
    intro c hm
    rcases List.mem_cons.mp hm with rfl | hm
    · rcases hc with rfl | rfl <;> omega
    · have := ih c hm
      rcases hc with rfl | rfl <;> omega

theorem stair_ivp {a : ℕ} {l : List ℕ} (h : Stair a l) :
    ∀ y ∈ l, ∀ z, a < z → z ≤ y → z ∈ l := by
  induction h with
  | nil => simp
  | @cons a c l2 hc hst ih =>
    intro y hy z haz hzy
    rcases List.mem_cons.mp hy with rfl | hy
    · rcases hc with rfl | rfl
      · omega
      · have hz : z = a + 1 := by omega
        exact hz ▸ List.mem_cons_self _ _
    · by_cases hzc : z = c
      · exact hzc ▸ List.mem_cons_self _ _
      · have hcz : c < z := by
          rcases hc with rfl | rfl <;> omega
        exact List.mem_cons_of_mem _ (ih y hy z hcz hzy)

theorem epAux_stair (t : ℤ) (p : ℕ) :
    ∀ (rs : List MRow) (pp : Option ℕ) (ld : ℕ → Option (Option ℤ))
      (cnt : ℕ → ℕ), Stair (cnt p) (nrsOf p (epAux t pp ld cnt rs)) := by
  intro rs
  induction rs with
  | nil =>
    intro pp ld cnt
    simp only [epAux, nrsOf, List.filterMap_nil]
    exact Stair.nil _
  | cons r rs ih =>
    intro pp ld cnt
    by_cases hp : r.patient_id = p
    · simp only [epAux, nrsOf, List.filterMap_cons, hp, if_pos]
      refine Stair.cons ?_ ?_
      · rw [← hp]
        exact add_ite_one_cases _ _
      · have h2 := ih (some r.patient_id) (epUpdLd ld r)
          (epUpdCnt cnt r (cnt r.patient_id +
            (if patientChange pp r || gapFlag t ld r then 1 else 0)))
        rw [epUpdCnt_eq _ _ _ hp, hp] at h2
        exact h2
    · simp only [epAux, nrsOf, List.filterMap_cons, hp, if_neg, if_false]
      have h2 := ih (some r.patient_id) (epUpdLd ld r)
        (epUpdCnt cnt r (cnt r.patient_id +
          (if patientChange pp r || gapFlag t ld r then 1 else 0)))
      rw [epUpdCnt_ne _ _ _ hp] at h2
      exact h2

theorem gapFlag_mono (t1 t2 : ℤ) (h : t1 ≤ t2) (ld : ℕ → Option (Option ℤ))
    (r : MRow) : gapFlag t2 ld r = true → gapFlag t1 ld r = true := by
  unfold gapFlag
  cases daysDiff ld r with
  | none => simp
  | some g =>
    simp only [decide_eq_true_eq]
    omega

theorem nrsOf_epAux_cons_self (t : ℤ) (pp : Option ℕ)
    (ld : ℕ → Option (Option ℤ)) (cnt : ℕ → ℕ) (r : MRow) (rs : List MRow) :
    nrsOf r.patient_id (epAux t pp ld cnt (r :: rs))
      = (cnt r.patient_id +
          (if patientChange pp r || gapFlag t ld r then 1 else 0)) ::
        nrsOf r.patient_id
          (epAux t (some r.patient_id) (epUpdLd ld r)
            (epUpdCnt cnt r (cnt r.patient_id +
              (if patientChange pp r || gapFlag t ld r then 1 else 0))) rs) := by
  simp [epAux, nrsOf]

theorem nrsOf_epAux_cons_other (t : ℤ) (pp : Option ℕ)
    (ld : ℕ → Option (Option ℤ)) (cnt : ℕ → ℕ) (r : MRow) (rs : List MRow)
    {p : ℕ} (hp : ¬r.patient_id = p) :
    nrsOf p (epAux t pp ld cnt (r :: rs))
      = nrsOf p
          (epAux t (some r.patient_id) (epUpdLd ld r)
            (epUpdCnt cnt r (cnt r.patient_id +
              (if patientChange pp r || gapFlag t ld r then 1 else 0))) rs) := by
  simp [epAux, nrsOf, hp]

theorem epAux_le (t1 t2 : ℤ) (h12 : t1 ≤ t2) (p : ℕ) :
    ∀ (rs : List MRow) (pp : Option ℕ) (ld : ℕ → Option (Option ℤ))
      (cnt2 cnt1 : ℕ → ℕ), (∀ q, cnt2 q ≤ cnt1 q) →
      ∀ c ∈ nrsOf p (epAux t2 pp ld cnt2 rs),
        ∃ c2 ∈ nrsOf p (epAux t1 pp ld cnt1 rs), c ≤ c2 := by
  intro rs
  induction rs generalizing p with
  | nil =>
    intro pp ld cnt2 cnt1 _ c hc
    simp [epAux, nrsOf] at hc
  | cons r rs ih =>
    intro pp ld cnt2 cnt1 hinv c hc
    have hb : (if patientChange pp r || gapFlag t2 ld r then (1 : ℕ) else 0)
        ≤ (if patientChange pp r || gapFlag t1 ld r then 1 else 0) := by
      by_cases h2 : (patientChange pp r || gapFlag t2 ld r) = true
      · rcases Bool.or_eq_true_iff.mp h2 with hx | hx
        · simp [hx]
        · simp [gapFlag_mono t1 t2 h12 ld r hx, hx]
      · simp [h2]
    have hcle : cnt2 r.patient_id +
        (if patientChange pp r || gapFlag t2 ld r then 1 else 0)
        ≤ cnt1 r.patient_id +
          (if patientChange pp r || gapFlag t1 ld r then 1 else 0) := by
      have := hinv r.patient_id
      omega
    have hinv2 : ∀ q,
        epUpdCnt cnt2 r (cnt2 r.patient_id +
          (if patientChange pp r || gapFlag t2 ld r then 1 else 0)) q
        ≤ epUpdCnt cnt1 r (cnt1 r.patient_id +
          (if patientChange pp r || gapFlag t1 ld r then 1 else 0)) q := by
      intro q
      unfold epUpdCnt
      by_cases hq : q = r.patient_id
      · simpa [hq] using hcle
      · simpa [hq] using hinv q
    by_cases hp : r.patient_id = p
    · subst hp
      rw [nrsOf_epAux_cons_self] at hc
      rw [nrsOf_epAux_cons_self]
      rcases List.mem_cons.mp hc with rfl | hc
      · exact ⟨_, List.mem_cons_self _ _, hcle⟩
      · obtain ⟨c2, hc2, hle⟩ := ih r.patient_id (some r.patient_id)
          (epUpdLd ld r) _ _ hinv2 c hc
        exact ⟨c2, List.mem_cons_of_mem _ hc2, hle⟩
    · rw [nrsOf_epAux_cons_other t2 pp ld cnt2 r rs hp] at hc
      rw [nrsOf_epAux_cons_other t1 pp ld cnt1 r rs hp]
      exact ih p (some r.patient_id) (epUpdLd ld r) _ _ hinv2 c hc

theorem daysDiff_none_left (ld : ℕ → Option (Option ℤ)) (r : MRow)
    (h : ld r.patient_id = none) : daysDiff ld r = none := by
  unfold daysDiff
  rw [h]

theorem epAux_head (t1 t2 : ℤ) (p : ℕ) :
    ∀ (rs : List MRow) (pp : Option ℕ) (ld : ℕ → Option (Option ℤ))
      (cnt2 cnt1 : ℕ → ℕ),
      (∀ q, ld q = none → cnt2 q = cnt1 q) → ld p = none →
      (nrsOf p (epAux t2 pp ld cnt2 rs) = [] ∧
        nrsOf p (epAux t1 pp ld cnt1 rs) = []) ∨
      (∃ h0 l2 l1, nrsOf p (epAux t2 pp ld cnt2 rs) = h0 :: l2 ∧
        nrsOf p (epAux t1 pp ld cnt1 rs) = h0 :: l1) := by
  intro rs
  induction rs generalizing p with
  | nil =>
    intro pp ld cnt2 cnt1 _ _
    left
    simp [epAux, nrsOf]
  | cons r rs ih =>
    intro pp ld cnt2 cnt1 hinv hldp
    by_cases hp : r.patient_id = p
    · subst hp
      right
      have hgap2 : gapFlag t2 ld r = false := by
        rw [gapFlag, daysDiff_none_left ld r hldp]
      have hgap1 : gapFlag t1 ld r = false := by
        rw [gapFlag, daysDiff_none_left ld r hldp]
      have hcnt : cnt2 r.patient_id = cnt1 r.patient_id :=
        hinv r.patient_id hldp
      rw [nrsOf_epAux_cons_self, nrsOf_epAux_cons_self, hgap2, hgap1, hcnt]
      exact ⟨_, _, _, rfl, rfl⟩
    · have hinv2 : ∀ q, epUpdLd ld r q = none →
          epUpdCnt cnt2 r (cnt2 r.patient_id +
            (if patientChange pp r || gapFlag t2 ld r then 1 else 0)) q
          = epUpdCnt cnt1 r (cnt1 r.patient_id +
            (if patientChange pp r || gapFlag t1 ld r then 1 else 0)) q := by
        intro q hq
        unfold epUpdLd at hq
        unfold epUpdCnt
        by_cases hqr : q = r.patient_id
        · rw [if_pos hqr] at hq
          cases hq
        · rw [if_neg hqr] at hq
          rw [if_neg hqr, if_neg hqr]
          exact hinv q hq
      have hldp2 : epUpdLd ld r p = none := by
        unfold epUpdLd
        rw [if_neg (fun hx => hp hx.symm)]
        exact hldp
      have h2 := ih p (some r.patient_id) (epUpdLd ld r) _ _ hinv2 hldp2
      rw [nrsOf_epAux_cons_other t2 pp ld cnt2 r rs hp,
        nrsOf_epAux_cons_other t1 pp ld cnt1 r rs hp]
      exact h2

theorem mem_nrsOf {l : List EpRow} {e : EpRow} (he : e ∈ l) :
    e.episode_nr ∈ nrsOf e.patient_id l := by
  unfold nrsOf
  exact List.mem_filterMap.mpr ⟨e, he, by simp⟩

theorem nrsOf_mem {p : ℕ} {c : ℕ} {l : List EpRow} (h : c ∈ nrsOf p l) :
    ∃ e ∈ l, e.patient_id = p ∧ e.episode_nr = c := by
  unfold nrsOf at h
  obtain ⟨e, he, hcond⟩ := List.mem_filterMap.mp h
  by_cases hp : e.patient_id = p
  · rw [if_pos hp] at hcond
    exact ⟨e, he, hp, Option.some.inj hcond⟩
  · rw [if_neg hp] at hcond
    cases hcond

theorem mem_idsOf {l : List EpRow} {e : EpRow} {p : ℕ} (he : e ∈ l)
    (hp : e.patient_id = p) : e.episode_id ∈ idsOf p l := by
  unfold idsOf
  exact List.mem_filterMap.mpr ⟨e, he, by simp [hp]⟩

theorem idsOf_mem {p : ℕ} {x : String} {l : List EpRow} (h : x ∈ idsOf p l) :
    ∃ e ∈ l, e.patient_id = p ∧ e.episode_id = x := by
  unfold idsOf at h
  obtain ⟨e, he, hcond⟩ := List.mem_filterMap.mp h
  by_cases hp : e.patient_id = p
  · rw [if_pos hp] at hcond
    exact ⟨e, he, hp, Option.some.inj hcond⟩
  · rw [if_neg hp] at hcond
    cases hcond

theorem epAux_id_form (t : ℤ) :
    ∀ (rs : List MRow) (pp : Option ℕ) (ld : ℕ → Option (Option ℤ))
      (cnt : ℕ → ℕ), ∀ e ∈ epAux t pp ld cnt rs,
      e.episode_id = toString e.patient_id ++ toString e.episode_nr := by
  intro rs
  induction rs with
  | nil => intro pp ld cnt e he; simp [epAux] at he
  | cons r rs ih =>
    intro pp ld cnt e he
    simp only [epAux] at he
    rcases List.mem_cons.mp he with rfl | he
    · rfl
    · exact ih (some r.patient_id) (epUpdLd ld r) _ e he

theorem determine_episode_nrs_subset (t1 t2 : ℤ) (h12 : t1 ≤ t2)
    (df : List MRow) (p : ℕ) :
    ∀ c ∈ nrsOf p (determine_episode df t2),
      c ∈ nrsOf p (determine_episode df t1) := by
  intro c hc
  unfold determine_episode at hc ⊢
  rcases epAux_head t1 t2 p (sortByLe mrowLe df) none (fun _ => none)
      (fun _ => 0) (fun _ => 0) (fun _ _ => rfl) rfl with
    ⟨h2, _⟩ | ⟨h0, l2, l1, h2eq, h1eq⟩
  · rw [h2] at hc
    cases hc
  · have hst2 : Stair 0 (nrsOf p (epAux t2 none (fun _ => none) (fun _ => 0)
        (sortByLe mrowLe df))) :=
      epAux_stair t2 p (sortByLe mrowLe df) none (fun _ => none) (fun _ => 0)
    have hst1 : Stair 0 (nrsOf p (epAux t1 none (fun _ => none) (fun _ => 0)
        (sortByLe mrowLe df))) :=
      epAux_stair t1 p (sortByLe mrowLe df) none (fun _ => none) (fun _ => 0)
    rw [h1eq]
    rw [h2eq] at hc hst2
    rcases List.mem_cons.mp hc with rfl | hcl
    · exact List.mem_cons_self _ _
    · cases hst2 with
      | cons hc0 hstl =>
        have hhc : h0 ≤ c := stair_mono hstl c hcl
        by_cases hch : c = h0
        · exact hch ▸ List.mem_cons_self _ _
        · have h0c : 0 < c := by omega
          obtain ⟨cc, hccmem, hccle⟩ := epAux_le t1 t2 h12 p
            (sortByLe mrowLe df) none (fun _ => none) (fun _ => 0) (fun _ => 0)
            (fun _ => le_refl _) c
            (by rw [h2eq]; exact List.mem_cons_of_mem _ hcl)
          rw [h1eq] at hccmem hst1
          exact stair_ivp hst1 cc hccmem c h0c hccle

/-- C7.  For a fixed input frame, raising the episode gap threshold cannot
increase the number of episodes `determine_episode` produces: for
thresholds `t1 ≤ t2`, the set of episode identifiers produced with `t2` is
contained in the set produced with `t1` — patient by patient, the episode
numbers form an integer staircase with the same first value and a smaller
final value — so the count of distinct identifiers with `t2` is at most
the count with `t1`, per patient and overall. -/
theorem c7_episode_count_antitone_in_time (t1 t2 : ℤ) (h12 : t1 ≤ t2)
    (df : List MRow) :
    (episodeIds (determine_episode df t2)).toFinset.card
        ≤ (episodeIds (determine_episode df t1)).toFinset.card ∧
      ∀ p, (idsOf p (determine_episode df t2)).toFinset.card
        ≤ (idsOf p (determine_episode df t1)).toFinset.card := by
  have hid2 : ∀ e ∈ determine_episode df t2,
      e.episode_id = toString e.patient_id ++ toString e.episode_nr :=
    epAux_id_form t2 (sortByLe mrowLe df) none (fun _ => none) (fun _ => 0)
  have hid1 : ∀ e ∈ determine_episode df t1,
      e.episode_id = toString e.patient_id ++ toString e.episode_nr :=
    epAux_id_form t1 (sortByLe mrowLe df) none (fun _ => none) (fun _ => 0)
  constructor
  · apply Finset.card_le_card
    intro x hx
    rw [List.mem_toFinset] at hx ⊢
    obtain ⟨e, he, rfl⟩ := List.mem_map.mp hx
    obtain ⟨e1, he1, hp1, hnr1⟩ := nrsOf_mem
      (determine_episode_nrs_subset t1 t2 h12 df e.patient_id
        e.episode_nr (mem_nrsOf he))
    refine List.mem_map.mpr ⟨e1, he1, ?_⟩
    rw [hid1 e1 he1, hid2 e he, hp1, hnr1]
  · intro p
    apply Finset.card_le_card
    intro x hx
    rw [List.mem_toFinset] at hx ⊢
    obtain ⟨e, he, hpe, rfl⟩ := idsOf_mem hx
    obtain ⟨e1, he1, hp1, hnr1⟩ := nrsOf_mem
      (determine_episode_nrs_subset t1 t2 h12 df p e.episode_nr
        (hpe ▸ mem_nrsOf he))
    have hform := hid1 e1 he1
    rw [hp1, hnr1] at hform
    rw [hid2 e he, hpe]
    exact hform ▸ mem_idsOf he1 hp1

/-- C7, witness: patient 1 sampled on day 0 and day 2; with threshold 1
there are two episodes, with threshold 2 one, and the counts obey the
bound. -/
theorem c7_episode_count_antitone_in_time_witness :
    (1 : ℤ) ≤ 2 ∧
      (episodeIds (determine_episode
          [⟨1, some 0⟩, ⟨1, some (2 * 86400)⟩] 2)).toFinset.card
        ≤ (episodeIds (determine_episode
          [⟨1, some 0⟩, ⟨1, some (2 * 86400)⟩] 1)).toFinset.card :=
  ⟨by decide,
    (c7_episode_count_antitone_in_time 1 2 (by decide)
      [⟨1, some 0⟩, ⟨1, some (2 * 86400)⟩]).1⟩
